import Mathlib

/-!
Verification of the mt5-python-history-extractor repository.

Shallow embedding of `mt5_history_fetcher.py` and `test_parquet_output.py`:

* timestamps are modelled as epoch seconds (`ℤ`, or `ℚ` for the evenly
  spaced synthetic timestamps of the test generator); the program renders
  them through an injective `strftime` format, so counting/ordering facts
  transfer;
* Python floats are idealised as `ℚ`; raw provider fields use a
  dedicated `PyFloat` type with `nan` and infinity constructors, so
  that non-finite values are representable (the live conversion loop
  turns out to raise before ever reading them: see
  `fetch_history_live`);
* `round(x, 5)` is modelled as exact decimal rounding to five places with
  ties to even (`round5`), matching Python's round-half-to-even;
* the external MetaTrader5 provider is an explicit parameter: a finite
  store of raw bars, with `copy_rates_from` modelled from the spec
  (fetch up to `count` bars whose time is at or before the anchor,
  most recent ones first in time order);
* the `while True` backfill loop is embedded with an explicit fuel
  argument; termination is the statement that a concrete fuel bound
  always suffices;
* random draws (`random.uniform`, `random.randint`, `random.random`)
  are explicit inputs constrained only by the bounds the library
  guarantees.
-/

/-- One value of a Python float field as delivered by the provider:
either a finite value or one of the non-finite floats.  Python's
`float(...)` applied to a float is the identity, so the conversion in
`fetch_history` passes these through unchanged. -/
inductive PyFloat where
  | finite (val : ℚ)
  | nan
  | posInf
  | negInf
deriving DecidableEq

/-- A raw provider record (one element of the numpy array returned by
`mt5.copy_rates_from`): open time in epoch seconds, OHLC prices and the
tick volume. -/
structure Rate where
  time : ℤ
  open_ : PyFloat
  high : PyFloat
  low : PyFloat
  close : PyFloat
  volume : ℤ
deriving DecidableEq

/-- One bar dictionary of the shape the conversion loop of
`fetch_history` (live branch, lines 167-180) is written to build:
formatted timestamp (kept as the underlying epoch seconds), `float(...)`
prices and `int(...)` volume.  In the current source the loop never
builds one (see `fetch_history_live`): live bar lists are only ever
empty. -/
structure Bar where
  time : ℤ
  open_ : PyFloat
  high : PyFloat
  low : PyFloat
  close : PyFloat
  volume : ℤ
deriving DecidableEq

/-! ### Decimal rounding, `round(x, 5)` -/

/-- Python's `round` to an integer: round half to even. -/
def roundHalfEven (q : ℚ) : ℤ :=
  if q - ⌊q⌋ < 1/2 then ⌊q⌋
  else if 1/2 < q - ⌊q⌋ then ⌊q⌋ + 1
  else if 2 ∣ ⌊q⌋ then ⌊q⌋ else ⌊q⌋ + 1

/-- Python's `round(x, 5)`: scale, round half to even, unscale. -/
def round5 (q : ℚ) : ℚ :=
  (roundHalfEven (q * 100000) : ℚ) / 100000

/-! ### TimeframeResolver: `get_timeframe_from_config` -/

/-- Python's `str.upper()` restricted to the ASCII strings this program
compares (`String.toUpper` character map, applied to the char data). -/
def pyUpper (s : String) : String := ⟨s.data.map Char.toUpper⟩

/-- The timeframe table of `get_timeframe_from_config` (the branch
without MetaTrader5, whose values are the bar lengths in minutes; the
MT5 branch uses the same eighteen keys with opaque provider codes). -/
def timeframe_map : List (String × ℤ) :=
  [("M1", 1), ("M2", 2), ("M3", 3), ("M4", 4), ("M5", 5), ("M10", 10),
   ("M15", 15), ("M30", 30), ("H1", 60), ("H2", 120), ("H3", 180),
   ("H4", 240), ("H6", 360), ("H8", 480), ("H12", 720), ("D1", 1440),
   ("W1", 10080), ("MN1", 43200)]

/-- The supported label set, in table order (`timeframe_map.keys()`). -/
def supported_labels : List String := timeframe_map.map Prod.fst

/-- The `ValueError` raised for an unknown timeframe: it carries the
(upper-cased) offending label and the list of available labels that the
message interpolates. -/
structure UnknownTimeframe where
  label : String
  available : List String
deriving DecidableEq

/-- `get_timeframe_from_config`: upper-case the label, look it up in the
table, raise `ValueError` listing all keys when absent. -/
def get_timeframe_from_config (timeframe_str : String) : Except UnknownTimeframe ℤ :=
  match timeframe_map.find? (fun p => p.1 == pyUpper timeframe_str) with
  | some p => Except.ok p.2
  | none => Except.error ⟨pyUpper timeframe_str, supported_labels⟩

deriving instance DecidableEq for Except

/-! ### HistoryBackfiller: `get_full_history` -/

/-- Modelled from the spec: the external provider call
`mt5.copy_rates_from(symbol, timeframe, anchor, count)` requests up to
`count` bars ending at (anchored to) the cursor — the most recent
`count` bars of the store whose open time is at or before `anchor`,
in the store's (chronological) order.  The store is the provider's
available history for the requested symbol and timeframe. -/
def copyRatesFrom (store : List Rate) (anchor : ℤ) (count : ℕ) : List Rate :=
  let avail := store.filter (fun r => r.time ≤ anchor)
  avail.drop (avail.length - count)

/-- The `df['time'].min()` step: minimum open time of a batch (the code
only evaluates it on non-empty batches; `0` is a junk value for `[]`). -/
def minTime : List Rate → ℤ
  | [] => 0
  | r :: rs => rs.foldl (fun m x => min m x.time) r.time

/-- Comparison used by `sort_values('time')`. -/
def byTime (a b : Rate) : Prop := a.time ≤ b.time

instance : DecidableRel byTime := fun a b => inferInstanceAs (Decidable (a.time ≤ b.time))

instance : IsTotal Rate byTime := ⟨fun a b => Int.le_total a.time b.time⟩

instance : IsTrans Rate byTime := ⟨fun _ _ _ h h2 => le_trans h h2⟩

/-- The merge step after the paging loop (lines 125-130):
`pd.concat(all_rates).sort_values('time')` — concatenate the
accumulated batches and sort by time (a comparison sort: same multiset,
sorted by time; no deduplication is performed).  The empty-accumulator
guard returns an empty frame, which coincides with sorting `[]`. -/
def mergeBatches (batches : List (List Rate)) : List Rate :=
  List.insertionSort byTime batches.flatten

/-- The `while True` paging loop of `get_full_history`, with explicit
fuel: request a batch anchored at the cursor; stop on an empty batch;
accumulate; move the cursor to the earliest time of the batch; stop
when the batch was short.  Returns the accumulated batches, or `none`
if the fuel ran out before the loop broke. -/
def getFullHistoryLoop (count : ℕ) (store : List Rate) (anchor : ℤ)
    (acc : List (List Rate)) : ℕ → Option (List (List Rate))
  | 0 => none
  | fuel + 1 =>
    if (copyRatesFrom store anchor count).length = 0 then some acc
    else if (copyRatesFrom store anchor count).length < count then
      some (acc ++ [copyRatesFrom store anchor count])
    else
      getFullHistoryLoop count store (minTime (copyRatesFrom store anchor count))
        (acc ++ [copyRatesFrom store anchor count]) fuel

/-- `get_full_history` with the batch size as a parameter: run the
paging loop from the current wall-clock instant `now`, then concatenate
and sort the accumulated batches. -/
def getFullHistoryWith (count : ℕ) (store : List Rate) (now : ℤ) (fuel : ℕ) :
    Option (List Rate) :=
  (getFullHistoryLoop count store now [] fuel).map mergeBatches

/-- `get_full_history(symbol, timeframe)`: the code fixes
`count = 10000` (максимальное количество свечей за раз). -/
def get_full_history (store : List Rate) (now : ℤ) (fuel : ℕ) : Option (List Rate) :=
  getFullHistoryWith 10000 store now fuel

/-- A rate with the given open time and fixed unit prices, used for
concrete provider stores in the theorems below. -/
def exRate (t : ℤ) : Rate :=
  ⟨t, PyFloat.finite 1, PyFloat.finite 1, PyFloat.finite 1, PyFloat.finite 1, 1⟩

/-! ### `fetch_history`, live branch (MT5 available) -/

/-- Outcome of the live branch of `fetch_history`: returning `None`
(symbol not found), returning a list of bar dictionaries, or raising an
exception out of the conversion loop. -/
inductive FetchOutcome where
  | failed
  | bars (bs : List Bar)
  | typeError
deriving DecidableEq

/-- The live branch of `fetch_history` (lines 140-180): after
`symbol_select` (whose failure returns `None`), it calls
`get_full_history(symbol, timeframe)` — not the commented-out ranged
query — which returns a pandas DataFrame; the requested
`start_date` / `end_date` are parsed and printed but never used to
restrict the data.  An empty DataFrame returns `[]`.  Otherwise the
conversion loop `for rate in rates:` at line 169 iterates the
DataFrame, which yields its column labels (strings), so
`datetime.fromtimestamp(rate[0])` receives the first character of
`'time'` and raises `TypeError` on the first iteration, for any
non-empty history and regardless of the bar values: the live branch
never returns a non-empty list of bars. -/
def fetch_history_live (store : List Rate) (now : ℤ) (fuel : ℕ)
    (symbolOk : Bool) (start_date end_date : ℤ) : Option FetchOutcome :=
  if symbolOk then
    (get_full_history store now fuel).map
      (fun rs => if rs.length = 0 then FetchOutcome.bars [] else FetchOutcome.typeError)
  else some FetchOutcome.failed

/-! ### `fetch_history`, mock branch (MT5 unavailable) -/

/-- One iteration's random draws in the mock branch of `fetch_history`:
`o`,`h`,`l`,`c` are the four `random.uniform(1.0, 2.0)` results, `vol`
is `random.randint(0, 1000)`, and `dh`, `dl` are the
`random.uniform(0.0001, 0.01)` widening amounts used by the fix-up. -/
structure DrawM where
  o : ℚ
  h : ℚ
  l : ℚ
  c : ℚ
  vol : ℤ
  dh : ℚ
  dl : ℚ
deriving DecidableEq

/-- A bar produced by either synthetic generator: formatted timestamp
(kept as the underlying instant, in seconds), rounded prices, volume. -/
structure MockBar where
  time : ℚ
  open_ : ℚ
  high : ℚ
  low : ℚ
  close : ℚ
  volume : ℤ
deriving DecidableEq

/-- One bar of the mock branch of `fetch_history` (lines 194-214):
round the four uniform draws to 5 places, then widen `high` (resp.
`low`) when it falls below `max(open, close)` (resp. above
`min(open, close)`). -/
def mockBar (t : ℚ) (d : DrawM) : MockBar where
  time := t
  open_ := round5 d.o
  high :=
    if round5 d.h < max (round5 d.o) (round5 d.c) then
      round5 (max (round5 d.o) (round5 d.c) + d.dh)
    else round5 d.h
  low :=
    if min (round5 d.o) (round5 d.c) < round5 d.l then
      round5 (min (round5 d.o) (round5 d.c) - d.dl)
    else round5 d.l
  close := round5 d.c
  volume := d.vol

/-- `int(diff.total_seconds() / 60)`: whole minutes between the two
instants, truncated toward zero as Python's `int()` does. -/
def minutesDiff (start_dt end_dt : ℤ) : ℤ := Int.tdiv (end_dt - start_dt) 60

/-- The mock branch of `fetch_history` (lines 181-217): starting at
`start_date`, generate `min(minutes_diff + 1, 100)` bars spaced one
minute apart (an empty list when the range is negative).  The resolved
`timeframe` is accepted but never used. -/
def fetch_history_mock (timeframe : ℤ) (start_date end_date : ℤ)
    (draws : ℕ → DrawM) : List MockBar :=
  (List.range (min (minutesDiff start_date end_date + 1) 100).toNat).map
    (fun (i : ℕ) => mockBar ((start_date : ℚ) + 60 * (i : ℚ)) (draws i))

/-! ### `generate_mock_mt5_data` (test_parquet_output.py) -/

/-- One iteration's random draws in `generate_mock_mt5_data`:
`change` is `random.uniform(-0.005, 0.005)`, `u1` and `u2` the two
`random.uniform(0, 0.002)` results (used through `abs`), `r` is
`random.random()`, `vol` is `random.randint(100, 10000)`. -/
structure DrawG where
  change : ℚ
  u1 : ℚ
  u2 : ℚ
  r : ℚ
  vol : ℤ
deriving DecidableEq

/-- The generation loop of `generate_mock_mt5_data` (lines 27-48):
walk the base price, derive `high`/`low` by widening around the open,
place `close` between them, round everything to 5 places, and seed the
next iteration from the unrounded close. -/
def genMockAux (s step : ℚ) (draws : ℕ → DrawG) : ℚ → ℕ → ℕ → List MockBar
  | _, _, 0 => []
  | base, i, n + 1 =>
    let d := draws i
    let o := base + d.change
    let h := o + |d.u1|
    let l := o - |d.u2|
    let c := l + d.r * (h - l)
    ⟨s + i * step, round5 o, round5 h, round5 l, round5 c, d.vol⟩ ::
      genMockAux s step draws c (i + 1) n

/-- `generate_mock_mt5_data(symbol, start, end, count)`: `count` bars at
timestamps `start + i * (end - start) / count`, seeded from the base
price 1.05. -/
def generate_mock_mt5_data (start_dt end_dt : ℚ) (count : ℕ)
    (draws : ℕ → DrawG) : List MockBar :=
  genMockAux start_dt ((end_dt - start_dt) / count) draws 1.05 0 count

/-! ### `main`: control flow and connection lifecycle -/

/-- Observable events of one run of `main`, in order: the provider
connection being acquired (`mt5.initialize()` succeeding), the data
being saved (`save_to_parquet` completing), the no-data diagnostic, an
error being printed by the generic `except` handler, and the connection
being released (`mt5.shutdown()`). -/
inductive Ev where
  | connect
  | save
  | noData
  | errPrinted
  | disconnect
deriving DecidableEq

/-- What a successful `save_to_parquet` call received: the live bar
dictionaries or the mock ones. -/
inductive Payload where
  | live (bars : List Bar)
  | mock (bars : List MockBar)
deriving DecidableEq

/-- The body of `main` (lines 241-289) as a trace of events plus the
payload written on a completed save.  `configOk` is `load_config`
succeeding, `initOk` is `mt5.initialize()` succeeding in the live mode,
`symbolOk` is `mt5.symbol_select`, `writeOk` is the parquet write not
raising.  Exceptions — an unknown timeframe, the `TypeError` raised by
the conversion loop of `fetch_history` on any non-empty live history,
or a failing write — land in the generic `except` handler, which prints
the error and falls through to the end of `main`: `mt5.shutdown()` runs
only on the non-exception path, after the save / no-data branch.  (The
fetch returning `none` is the fuel-exhaustion artifact of the
embedding, unreachable for adequate fuel; the trace then stops after
the connection event.) -/
def mainRun (mt5Available configOk initOk symbolOk writeOk : Bool)
    (timeframe_str : String) (store : List Rate) (now : ℤ) (fuel : ℕ)
    (start_date end_date : ℤ) (draws : ℕ → DrawM) : List Ev × Option Payload :=
  if configOk = false then ([Ev.errPrinted], none)
  else if mt5Available then
    if initOk = false then ([], none)
    else
      match get_timeframe_from_config timeframe_str with
      | Except.error _ => ([Ev.connect, Ev.errPrinted], none)
      | Except.ok _ =>
        match fetch_history_live store now fuel symbolOk start_date end_date with
        | none => ([Ev.connect], none)
        | some FetchOutcome.failed => ([Ev.connect, Ev.noData, Ev.disconnect], none)
        | some FetchOutcome.typeError => ([Ev.connect, Ev.errPrinted], none)
        | some (FetchOutcome.bars bars) =>
          if writeOk then ([Ev.connect, Ev.save, Ev.disconnect], some (Payload.live bars))
          else ([Ev.connect, Ev.errPrinted], none)
  else
    match get_timeframe_from_config timeframe_str with
    | Except.error _ => ([Ev.errPrinted], none)
    | Except.ok tf =>
      if writeOk then
        ([Ev.save], some (Payload.mock (fetch_history_mock tf start_date end_date draws)))
      else ([Ev.errPrinted], none)

/-- A provider store holding exactly the twelve M5 bars of the hour
0..3600 (epoch seconds 0, 300, ..., 3300) plus one bar far outside that
range. -/
def cStore : List Rate :=
  [exRate 0, exRate 300, exRate 600, exRate 900, exRate 1200, exRate 1500,
   exRate 1800, exRate 2100, exRate 2400, exRate 2700, exRate 3000,
   exRate 3300, exRate 999999]

/-- A provider store holding exactly the twelve M5 bars of the hour
0..3600 and nothing else: the spec's end-to-end scenario. -/
def store12 : List Rate :=
  [exRate 0, exRate 300, exRate 600, exRate 900, exRate 1200, exRate 1500,
   exRate 1800, exRate 2100, exRate 2400, exRate 2700, exRate 3000,
   exRate 3300]

/-- A raw provider record with a non-finite `close`. -/
def nanRate : Rate :=
  ⟨100, PyFloat.finite 1, PyFloat.finite 2, PyFloat.finite 1, PyFloat.nan, 5⟩

/-! ### Supporting lemmas -/

theorem roundHalfEven_intCast (z : ℤ) : roundHalfEven (z : ℚ) = z := by
  unfold roundHalfEven
  rw [Int.floor_intCast]
  norm_num

theorem le_roundHalfEven (q : ℚ) : ⌊q⌋ ≤ roundHalfEven q := by
  unfold roundHalfEven
  split_ifs <;> omega

theorem roundHalfEven_le (q : ℚ) : roundHalfEven q ≤ ⌊q⌋ + 1 := by
  unfold roundHalfEven
  split_ifs <;> omega

theorem roundHalfEven_mono : Monotone roundHalfEven := by
  intro a b hab
  rcases lt_or_eq_of_le (Int.floor_le_floor hab) with hlt | heq
  · calc roundHalfEven a ≤ ⌊a⌋ + 1 := roundHalfEven_le a
      _ ≤ ⌊b⌋ := by omega
      _ ≤ roundHalfEven b := le_roundHalfEven b
  · unfold roundHalfEven
    rw [← heq]
    have hd : a - ⌊a⌋ ≤ b - ⌊a⌋ := by linarith
    split_ifs <;> first | omega | linarith

theorem round5_mono {a b : ℚ} (h : a ≤ b) : round5 a ≤ round5 b := by
  unfold round5
  have := roundHalfEven_mono (mul_le_mul_of_nonneg_right h (by norm_num : (0:ℚ) ≤ 100000))
  have hc : (roundHalfEven (a * 100000) : ℚ) ≤ (roundHalfEven (b * 100000) : ℚ) := by
    exact_mod_cast this
  linarith

theorem round5_round5 (q : ℚ) : round5 (round5 q) = round5 q := by
  unfold round5
  rw [div_mul_cancel₀ _ (by norm_num : (100000:ℚ) ≠ 0)]
  rw [show ((roundHalfEven (q * 100000) : ℚ)) = ((roundHalfEven (q * 100000) : ℤ) : ℚ) from rfl]
  rw [roundHalfEven_intCast]

/-! ### Claim theorems -/

/-- C7: for every label in the supported eighteen-element set, timeframe
resolution succeeds (the mapping is total over the set), and resolution
is case-insensitive: any string whose upper-cased form is a supported
label resolves to the same code as the label itself. -/
theorem timeframe_resolve_total_case_insensitive :
    (supported_labels.all (fun l => (get_timeframe_from_config l).isOk)) = true ∧
    (∀ (s l : String), l ∈ supported_labels → pyUpper s = l →
      get_timeframe_from_config s = get_timeframe_from_config l) := by
  refine ⟨by decide, ?_⟩
  intro s l hl hsl
  have hfix : ∀ l2 ∈ supported_labels, pyUpper l2 = l2 := by decide
  unfold get_timeframe_from_config
  rw [hsl, hfix l hl]

/-- Witness for C7 at concrete inputs: resolving the lower-case variant
of every supported label gives the same code; in particular
`resolve("m1") == resolve("M1")`. -/
theorem timeframe_resolve_total_case_insensitive_witness :
    (supported_labels.all (fun l => (get_timeframe_from_config l).isOk)) = true ∧
    get_timeframe_from_config "m1" = get_timeframe_from_config "M1" :=
  ⟨timeframe_resolve_total_case_insensitive.1,
   timeframe_resolve_total_case_insensitive.2 "m1" "M1" (by decide) (by decide)⟩

/-- C8: for every label whose upper-cased form is absent from the
table, resolution fails with the unknown-timeframe error carrying that
upper-cased label, and the error enumerates all eighteen valid
labels. -/
theorem unknown_timeframe_error_lists_labels :
    (∀ s : String, pyUpper s ∉ supported_labels →
      get_timeframe_from_config s = Except.error ⟨pyUpper s, supported_labels⟩) ∧
    supported_labels =
      ["M1", "M2", "M3", "M4", "M5", "M10", "M15", "M30", "H1", "H2", "H3",
       "H4", "H6", "H8", "H12", "D1", "W1", "MN1"] ∧
    supported_labels.length = 18 := by
  refine ⟨?_, by decide, by decide⟩
  intro s hs
  unfold get_timeframe_from_config
  have hf : timeframe_map.find? (fun p => p.1 == pyUpper s) = none := by
    rw [List.find?_eq_none]
    intro x hx
    simp only [beq_iff_eq]
    intro heq
    exact hs (heq ▸ List.mem_map_of_mem Prod.fst hx)
  rw [hf]

/-- Witness for C8 at a concrete input: `"X1"` upper-cases to itself,
is absent from the table, and resolves to the enumerating error. -/
theorem unknown_timeframe_error_lists_labels_witness :
    get_timeframe_from_config "X1" = Except.error ⟨"X1", supported_labels⟩ ∧
    supported_labels.length = 18 := by
  constructor
  · have h := unknown_timeframe_error_lists_labels.1 "X1" (by decide)
    rwa [show pyUpper "X1" = "X1" from by decide] at h
  · exact unknown_timeframe_error_lists_labels.2.2

/-- C1 (amended): for every set of accumulated batches, the merge step
after the paging loop returns the concatenation of the batches sorted
by ascending time, but performs no deduplication: every rate keeps its
full multiplicity from the concatenation, so a timestamp occurring in
several overlapping batches occurs several times in the result. -/
theorem merge_sorts_but_keeps_duplicates :
    ∀ batches : List (List Rate),
      List.Sorted byTime (mergeBatches batches) ∧
      (∀ r : Rate, (mergeBatches batches).count r = batches.flatten.count r) ∧
      (∀ t : ℤ, (mergeBatches batches).countP (fun r => r.time == t) =
        batches.flatten.countP (fun r => r.time == t)) := by
  intro batches
  refine ⟨List.sorted_insertionSort byTime batches.flatten, ?_, ?_⟩
  · intro r
    exact (List.perm_insertionSort byTime batches.flatten).count_eq r
  · intro t
    exact (List.perm_insertionSort byTime batches.flatten).countP_eq _

/-- C1 (counterexample): for the spec's own overlap scenario — two
accumulated batches covering times 0..5 and 3..8 — the merged result
contains the boundary timestamps twice, not exactly once. -/
theorem merge_dedup_counterexample :
    (mergeBatches
        [[exRate 0, exRate 1, exRate 2, exRate 3, exRate 4, exRate 5],
         [exRate 3, exRate 4, exRate 5, exRate 6, exRate 7, exRate 8]]).countP
      (fun r => r.time == 3) = 2 ∧
    (mergeBatches
        [[exRate 0, exRate 1, exRate 2, exRate 3, exRate 4, exRate 5],
         [exRate 3, exRate 4, exRate 5, exRate 6, exRate 7, exRate 8]]).length = 12 := by
  refine ⟨by decide, by decide⟩

/-- C10: in mock mode `fetch_history` ignores the resolved timeframe,
returns at most 100 bars, and the bar times are exactly
`start + 60 * i` seconds for `i` below `min(minutes_diff + 1, 100)`:
the first bar sits at the requested start, consecutive bars are one
minute apart, and a range longer than 100 minutes is truncated. -/
theorem fetch_history_mock_shape :
    ∀ (timeframe timeframe2 start_date end_date : ℤ) (draws : ℕ → DrawM),
      fetch_history_mock timeframe start_date end_date draws =
        fetch_history_mock timeframe2 start_date end_date draws ∧
      (fetch_history_mock timeframe start_date end_date draws).length ≤ 100 ∧
      (fetch_history_mock timeframe start_date end_date draws).map MockBar.time =
        (List.range (min (minutesDiff start_date end_date + 1) 100).toNat).map
          (fun (i : ℕ) => (start_date : ℚ) + 60 * (i : ℚ)) := by
  intro tf tf2 s e draws
  refine ⟨rfl, ?_, ?_⟩
  · unfold fetch_history_mock
    rw [List.length_map, List.length_range]
    have h1 : min (minutesDiff s e + 1) 100 ≤ (100 : ℤ) := min_le_right _ _
    omega
  · unfold fetch_history_mock
    rw [List.map_map]
    rfl

/-- Rounding fixes a value that is already on the 5-decimal grid; in
particular the max or min of two already-rounded prices. -/
theorem round5_max_round5 (a b : ℚ) :
    round5 (max (round5 a) (round5 b)) = max (round5 a) (round5 b) := by
  rcases max_choice (round5 a) (round5 b) with h | h <;> rw [h] <;> exact round5_round5 _

theorem round5_min_round5 (a b : ℚ) :
    round5 (min (round5 a) (round5 b)) = min (round5 a) (round5 b) := by
  rcases min_choice (round5 a) (round5 b) with h | h <;> rw [h] <;> exact round5_round5 _

/-- Invariant of one bar of the mock branch of `fetch_history`: after
the fix-up, `high` dominates `max(open, close)` and `low` is dominated
by `min(open, close)`, for any draws with non-negative widening amounts
and volume. -/
theorem mockBar_inv (t : ℚ) (d : DrawM)
    (hdh : 0 ≤ d.dh) (hdl : 0 ≤ d.dl) (hvol : 0 ≤ d.vol) :
    (mockBar t d).low ≤ min (mockBar t d).open_ (mockBar t d).close ∧
    max (mockBar t d).open_ (mockBar t d).close ≤ (mockBar t d).high ∧
    0 ≤ (mockBar t d).volume := by
  unfold mockBar
  simp only
  refine ⟨?_, ?_, hvol⟩
  · split_ifs with h
    · calc round5 (min (round5 d.o) (round5 d.c) - d.dl)
          ≤ round5 (min (round5 d.o) (round5 d.c)) := round5_mono (by linarith)
        _ = min (round5 d.o) (round5 d.c) := round5_min_round5 d.o d.c
    · exact le_of_not_lt h
  · split_ifs with h
    · calc max (round5 d.o) (round5 d.c)
          = round5 (max (round5 d.o) (round5 d.c)) := (round5_max_round5 d.o d.c).symm
        _ ≤ round5 (max (round5 d.o) (round5 d.c) + d.dh) := round5_mono (by linarith)
    · exact le_of_not_lt h

/-- Invariant of the `generate_mock_mt5_data` loop: each produced bar
satisfies the containment invariant, for any draws with `r` in `[0,1]`
and non-negative volume. -/
theorem genMockAux_inv (s step : ℚ) (draws : ℕ → DrawG)
    (hdr : ∀ i, 0 ≤ (draws i).r ∧ (draws i).r ≤ 1 ∧ 0 ≤ (draws i).vol) :
    ∀ (n : ℕ) (base : ℚ) (i : ℕ) (b : MockBar), b ∈ genMockAux s step draws base i n →
      b.low ≤ min b.open_ b.close ∧ max b.open_ b.close ≤ b.high ∧ 0 ≤ b.volume := by
  intro n
  induction n with
  | zero => intro base i b hb; simp [genMockAux] at hb
  | succ n ih =>
    intro base i b hb
    rw [genMockAux] at hb
    rcases List.mem_cons.mp hb with hb | hb
    · subst hb
      obtain ⟨hr0, hr1, hv⟩ := hdr i
      simp only
      set d := draws i
      set o := base + d.change with ho
      set h := o + |d.u1| with hh
      set l := o - |d.u2| with hl
      set c := l + d.r * (h - l) with hc
      have hlo : l ≤ o := by rw [hl]; linarith [abs_nonneg d.u2]
      have hoh : o ≤ h := by rw [hh]; linarith [abs_nonneg d.u1]
      have hhl : 0 ≤ h - l := by linarith
      have hlc : l ≤ c := by
        rw [hc]; nlinarith
      have hch : c ≤ h := by
        rw [hc]
        nlinarith
      refine ⟨le_min (round5_mono hlo) (round5_mono hlc),
        max_le (round5_mono hoh) (round5_mono hch), hv⟩
    · exact ih _ _ b hb

/-- C9: every bar produced by the synthetic data generators — the mock
branch of `fetch_history` and `generate_mock_mt5_data` of the test
script — satisfies `high >= max(open, close)`,
`low <= min(open, close)` and `volume >= 0`, under the bounds the
`random` library guarantees for the draws (non-negative widening
amounts, `random.random()` in `[0,1]`, non-negative `randint` ranges). -/
theorem mock_generators_ohlc_invariant :
    (∀ (timeframe start_date end_date : ℤ) (draws : ℕ → DrawM),
      (∀ i, 0 ≤ (draws i).dh ∧ 0 ≤ (draws i).dl ∧ 0 ≤ (draws i).vol) →
      ∀ b ∈ fetch_history_mock timeframe start_date end_date draws,
        b.low ≤ min b.open_ b.close ∧ max b.open_ b.close ≤ b.high ∧ 0 ≤ b.volume) ∧
    (∀ (start_dt end_dt : ℚ) (count : ℕ) (draws : ℕ → DrawG),
      (∀ i, 0 ≤ (draws i).r ∧ (draws i).r ≤ 1 ∧ 0 ≤ (draws i).vol) →
      ∀ b ∈ generate_mock_mt5_data start_dt end_dt count draws,
        b.low ≤ min b.open_ b.close ∧ max b.open_ b.close ≤ b.high ∧ 0 ≤ b.volume) := by
  constructor
  · intro tf s e draws hdr b hb
    unfold fetch_history_mock at hb
    obtain ⟨i, _, rfl⟩ := List.mem_map.mp hb
    obtain ⟨h1, h2, h3⟩ := hdr i
    exact mockBar_inv _ (draws i) h1 h2 h3
  · intro s e count draws hdr b hb
    exact genMockAux_inv s _ draws hdr count _ 0 b hb

/-- Witness for C9 at concrete inputs: both generators, run with
constant concrete draws, produce only bars satisfying the invariant. -/
theorem mock_generators_ohlc_invariant_witness :
    ((fetch_history_mock 5 0 3600 (fun _ => ⟨1.5, 1.2, 1.4, 1.6, 7, 0.001, 0.002⟩)).all
      (fun b => decide (b.low ≤ min b.open_ b.close) &&
        decide (max b.open_ b.close ≤ b.high) && decide (0 ≤ b.volume))) = true ∧
    ((generate_mock_mt5_data 0 3600 20 (fun _ => ⟨0.001, 0.0005, 0.0007, 0.5, 250⟩)).all
      (fun b => decide (b.low ≤ min b.open_ b.close) &&
        decide (max b.open_ b.close ≤ b.high) && decide (0 ≤ b.volume))) = true := by
  constructor
  · rw [List.all_eq_true]
    intro b hb
    have := mock_generators_ohlc_invariant.1 5 0 3600
      (fun _ => ⟨1.5, 1.2, 1.4, 1.6, 7, 0.001, 0.002⟩) (fun i => by norm_num) b hb
    simp only [Bool.and_eq_true, decide_eq_true_eq]
    exact ⟨⟨this.1, this.2.1⟩, this.2.2⟩
  · rw [List.all_eq_true]
    intro b hb
    have := mock_generators_ohlc_invariant.2 0 3600 20
      (fun _ => ⟨0.001, 0.0005, 0.0007, 0.5, 250⟩) (fun i => by norm_num) b hb
    simp only [Bool.and_eq_true, decide_eq_true_eq]
    exact ⟨⟨this.1, this.2.1⟩, this.2.2⟩

/-- C2 (amended): the live fetch path ignores the requested range (the
parsed `start_date` / `end_date` never influence the result), and it
produces no ranged output at all: for any non-empty fetched history the
conversion loop raises `TypeError` (it iterates the DataFrame's column
labels) before returning a single bar, so no bars reach the writer;
only an empty history returns a (trivially empty) list. -/
theorem fetch_history_live_range_irrelevant :
    ∀ (store : List Rate) (now : ℤ) (fuel : ℕ) (symbolOk : Bool)
      (start_date end_date start_date2 end_date2 : ℤ) (rs : List Rate),
      (fetch_history_live store now fuel symbolOk start_date end_date =
        fetch_history_live store now fuel symbolOk start_date2 end_date2) ∧
      (get_full_history store now fuel = some rs → rs ≠ [] →
        fetch_history_live store now fuel true start_date end_date =
          some FetchOutcome.typeError) ∧
      (get_full_history store now fuel = some rs → rs = [] →
        fetch_history_live store now fuel true start_date end_date =
          some (FetchOutcome.bars [])) := by
  intro store now fuel ok s e s2 e2 rs
  refine ⟨rfl, ?_, ?_⟩
  · intro hg hne
    unfold fetch_history_live
    simp [hg, hne]
  · intro hg hnil
    unfold fetch_history_live
    simp [hg, hnil]

/-- Witness for C2 at a concrete input: against the thirteen-bar store,
the live fetch — for an arbitrary requested range — raises instead of
returning any bars. -/
theorem fetch_history_live_range_irrelevant_witness :
    fetch_history_live cStore 1000000 2 true 0 3600 = some FetchOutcome.typeError :=
  (fetch_history_live_range_irrelevant cStore 1000000 2 true 0 3600 0 0
    cStore).2.1 (by decide) (by decide)

/-- C2 (counterexample): the claim's own end-to-end scenario — the
range 0..3600 requested against a provider holding exactly the twelve
M5 bars of that hour — produces no output file with twelve records: the
conversion loop raises, `main` ends through the `except` handler, and
nothing is written. -/
theorem fetch_history_live_no_output_counterexample :
    fetch_history_live store12 1000000 2 true 0 3600 = some FetchOutcome.typeError ∧
    (mainRun true true true true true "M5" store12 1000000 2 0 3600
        (fun _ => ⟨1, 1, 1, 1, 0, 0, 0⟩)).1 = [Ev.connect, Ev.errPrinted] ∧
    (mainRun true true true true true "M5" store12 1000000 2 0 3600
        (fun _ => ⟨1, 1, 1, 1, 0, 0, 0⟩)).2 = none := by
  refine ⟨by decide, by decide, by decide⟩

/-- C3 (amended): no bar validation exists in the conversion loop, and
the loop never inspects bar values at all: the live fetch outcome on
any two non-empty histories is the same `TypeError` — malformed values
(non-finite prices, negative volumes) and well-formed values alike —
so the abort and the absence of an output file are unrelated to any
`MalformedBar` check. -/
theorem no_malformed_bar_validation :
    ∀ (store store2 : List Rate) (now now2 : ℤ) (fuel fuel2 : ℕ)
      (start_date end_date start_date2 end_date2 : ℤ) (rs rs2 : List Rate),
      get_full_history store now fuel = some rs →
      get_full_history store2 now2 fuel2 = some rs2 →
      rs ≠ [] → rs2 ≠ [] →
      fetch_history_live store now fuel true start_date end_date =
        some FetchOutcome.typeError ∧
      fetch_history_live store now fuel true start_date end_date =
        fetch_history_live store2 now2 fuel2 true start_date2 end_date2 := by
  intro store store2 now now2 fuel fuel2 s e s2 e2 rs rs2 h1 h2 hn1 hn2
  have e1 : fetch_history_live store now fuel true s e =
      some FetchOutcome.typeError := by
    unfold fetch_history_live
    simp [h1, hn1]
  have e2 : fetch_history_live store2 now2 fuel2 true s2 e2 =
      some FetchOutcome.typeError := by
    unfold fetch_history_live
    simp [h2, hn2]
  exact ⟨e1, e1.trans e2.symm⟩

/-- Witness for C3 at concrete inputs: the store with a `nan` close and
a well-formed one-bar store produce the identical `TypeError`
outcome. -/
theorem no_malformed_bar_validation_witness :
    fetch_history_live [nanRate] 200 2 true 0 3600 = some FetchOutcome.typeError ∧
    fetch_history_live [nanRate] 200 2 true 0 3600 =
      fetch_history_live [exRate 100] 300 2 true 0 7200 :=
  no_malformed_bar_validation [nanRate] [exRate 100] 200 300 2 2 0 3600 0 7200
    [nanRate] [exRate 100] (by decide) (by decide) (by decide) (by decide)

/-- C3 (counterexample): with a malformed record (non-finite `close`)
the run aborts with the same generic `TypeError` it raises on a
well-formed record — no `MalformedBar` validation distinguishes the bad
bar — and the trace shows the `except` handler, not a save (and also
not a shutdown). -/
theorem malformed_bar_counterexample :
    fetch_history_live [nanRate] 200 2 true 0 3600 =
      fetch_history_live [exRate 100] 200 2 true 0 3600 ∧
    fetch_history_live [nanRate] 200 2 true 0 3600 = some FetchOutcome.typeError ∧
    (mainRun true true true true true "M1" [nanRate] 200 2 0 3600
        (fun _ => ⟨1, 1, 1, 1, 0, 0, 0⟩)).1 = [Ev.connect, Ev.errPrinted] ∧
    (mainRun true true true true true "M1" [nanRate] 200 2 0 3600
        (fun _ => ⟨1, 1, 1, 1, 0, 0, 0⟩)).2 = none := by
  refine ⟨by decide, by decide, by decide, by decide⟩

/-- The live fetch only ever returns the empty bar list: the conversion
loop raises before building any bar dictionary. -/
theorem fetch_history_live_bars_eq_nil :
    ∀ (store : List Rate) (now : ℤ) (fuel : ℕ) (symbolOk : Bool)
      (start_date end_date : ℤ) (bs : List Bar),
      fetch_history_live store now fuel symbolOk start_date end_date =
        some (FetchOutcome.bars bs) → bs = [] := by
  intro store now fuel symbolOk s e bs h
  unfold fetch_history_live at h
  split_ifs at h
  · cases hg : get_full_history store now fuel with
    | none => rw [hg] at h; simp at h
    | some rs =>
      rw [hg] at h
      simp only [Option.map_some', Option.some.injEq] at h
      split_ifs at h
      injection h with h2
      exact h2.symm
  · simp at h

/-- C6 (amended): once the connection is acquired, `mt5.shutdown()` is
reached exactly on the non-exception paths: after the no-data
diagnostic (`fetch_history` returned `None`), or after a successful
save — which in live mode requires the fetch to have returned a list,
possible only for an empty history.  On any exception after
acquisition (an unknown timeframe, the `TypeError` the conversion loop
raises on every non-empty history, or a failing write) the generic
handler prints the error and `main` ends without releasing the
connection. -/
theorem connection_release_characterization :
    ∀ (mt5Available configOk initOk symbolOk writeOk : Bool)
      (timeframe_str : String) (store : List Rate) (now : ℤ) (fuel : ℕ)
      (start_date end_date : ℤ) (draws : ℕ → DrawM),
      Ev.connect ∈ (mainRun mt5Available configOk initOk symbolOk writeOk
          timeframe_str store now fuel start_date end_date draws).1 →
      (Ev.disconnect ∈ (mainRun mt5Available configOk initOk symbolOk writeOk
          timeframe_str store now fuel start_date end_date draws).1 ↔
        ((get_timeframe_from_config timeframe_str).isOk = true ∧
          (fetch_history_live store now fuel symbolOk start_date end_date =
              some FetchOutcome.failed ∨
            (fetch_history_live store now fuel symbolOk start_date end_date =
                some (FetchOutcome.bars []) ∧ writeOk = true)))) := by
  intro mt5 cfg init sym wr tf store now fuel s e draws
  unfold mainRun
  cases cfg with
  | false => intro h; simp at h
  | true =>
    cases mt5 with
    | false =>
      simp only [Bool.false_eq_true, if_false, if_true]
      cases hR : get_timeframe_from_config tf with
      | error u => intro h; simp at h
      | ok v =>
        cases wr with
        | false => intro h; simp at h
        | true => intro h; simp at h
    | true =>
      cases init with
      | false => intro h; simp at h
      | true =>
        simp only [Bool.true_eq_false, if_false, if_true]
        cases hR : get_timeframe_from_config tf with
        | error u =>
          intro _
          simp [Except.isOk, Except.toBool]
        | ok v =>
          cases hF : fetch_history_live store now fuel sym s e with
          | none =>
            intro _
            simp [Except.isOk, Except.toBool, hF]
          | some outcome =>
            cases outcome with
            | failed =>
              intro _
              simp [Except.isOk, Except.toBool]
            | typeError =>
              intro _
              simp [Except.isOk, Except.toBool, hF]
            | bars bs =>
              have hbs : bs = [] :=
                fetch_history_live_bars_eq_nil store now fuel sym s e bs hF
              subst hbs
              cases wr with
              | false =>
                intro _
                simp [Except.isOk, Except.toBool, hF]
              | true =>
                intro _
                simp [Except.isOk, Except.toBool, hF]

/-- Witness for C6 at a concrete input: an empty live history is the
one live case that saves; the theorem instantiates to the
released-iff condition there, with both sides true. -/
theorem connection_release_characterization_witness :
    Ev.disconnect ∈ (mainRun true true true true true "M1" [] 0 1 0 0
        (fun _ => ⟨1, 1, 1, 1, 0, 0, 0⟩)).1 ↔
      ((get_timeframe_from_config "M1").isOk = true ∧
        (fetch_history_live [] 0 1 true 0 0 = some FetchOutcome.failed ∨
          (fetch_history_live [] 0 1 true 0 0 = some (FetchOutcome.bars []) ∧
            true = true))) :=
  connection_release_characterization true true true true true "M1" [] 0 1 0 0
    (fun _ => ⟨1, 1, 1, 1, 0, 0, 0⟩) (by decide)

/-- C6 (counterexample): two exit paths acquire the connection and end
without `mt5.shutdown()`: an unknown timeframe raising after a
successful `initialize`, and — for any non-empty history with a valid
timeframe — the `TypeError` raised inside the conversion loop of
`fetch_history`. -/
theorem connection_leak_counterexample :
    (Ev.connect ∈ (mainRun true true true true true "X1" [] 0 1 0 0
        (fun _ => ⟨1, 1, 1, 1, 0, 0, 0⟩)).1 ∧
      Ev.disconnect ∉ (mainRun true true true true true "X1" [] 0 1 0 0
        (fun _ => ⟨1, 1, 1, 1, 0, 0, 0⟩)).1) ∧
    (Ev.connect ∈ (mainRun true true true true true "M1" cStore 1000000 2 0 3600
        (fun _ => ⟨1, 1, 1, 1, 0, 0, 0⟩)).1 ∧
      Ev.disconnect ∉ (mainRun true true true true true "M1" cStore 1000000 2 0 3600
        (fun _ => ⟨1, 1, 1, 1, 0, 0, 0⟩)).1) := by
  refine ⟨⟨by decide, by decide⟩, ⟨by decide, by decide⟩⟩

/-- Folding `min` over times never descends below a lower bound that is
the accumulator itself. -/
theorem foldl_min_eq (a : ℤ) (t : List Rate) (h : ∀ x ∈ t, a ≤ x.time) :
    t.foldl (fun m x => min m x.time) a = a := by
  induction t generalizing a with
  | nil => rfl
  | cons x xs ih =>
    rw [List.foldl_cons, min_eq_left (h x (List.mem_cons_self x xs))]
    exact ih a (fun y hy => h y (List.mem_cons_of_mem x hy))

/-- `df['time'].min()` of a batch whose first element is earliest. -/
theorem minTime_cons (hd : Rate) (tl : List Rate)
    (h : ∀ x ∈ tl, hd.time ≤ x.time) : minTime (hd :: tl) = hd.time := by
  rw [minTime]
  exact foldl_min_eq hd.time tl h

/-- The decrease argument of the backfill loop: when the provider store
is strictly increasing in time and a full batch of `count ≥ 2` bars is
returned, the bars at or before the new cursor (the earliest time of
the batch) are exactly the bars at or before the old cursor minus the
`count - 1` later bars of the batch. -/
theorem filter_le_minTime_length (store : List Rate) (anchor : ℤ) (count : ℕ)
    (hP : List.Pairwise (fun a b : Rate => a.time < b.time) store)
    (hc : 2 ≤ count)
    (hn : count ≤ (store.filter (fun r => r.time ≤ anchor)).length) :
    (store.filter (fun r => r.time ≤ minTime (copyRatesFrom store anchor count))).length =
      (store.filter (fun r => r.time ≤ anchor)).length - count + 1 := by
  set S := store.filter (fun r => r.time ≤ anchor) with hSdef
  set k := S.length - count with hk
  have hrates : copyRatesFrom store anchor count = S.drop k := rfl
  have hSP : List.Pairwise (fun a b : Rate => a.time < b.time) S := by
    rw [hSdef]; exact hP.filter _
  have hlenrates : (S.drop k).length = count := by
    rw [List.length_drop]; omega
  cases hrt : S.drop k with
  | nil => rw [hrt] at hlenrates; simp at hlenrates; omega
  | cons hd tl =>
    have hdropP : List.Pairwise (fun a b : Rate => a.time < b.time) (hd :: tl) := by
      rw [← hrt]; exact List.Pairwise.sublist (List.drop_sublist k S) hSP
    obtain ⟨hhd, htlP⟩ := List.pairwise_cons.mp hdropP
    have hmin : minTime (copyRatesFrom store anchor count) = hd.time := by
      rw [hrates, hrt]
      exact minTime_cons hd tl (fun x hx => le_of_lt (hhd x hx))
    have hdS : hd ∈ S := List.drop_subset k S (by rw [hrt]; exact List.mem_cons_self hd tl)
    have hdanchor : hd.time ≤ anchor := by
      rw [hSdef] at hdS
      exact of_decide_eq_true (List.mem_filter.mp hdS).2
    rw [hmin]
    have hstep1 : store.filter (fun r => r.time ≤ hd.time) =
        S.filter (fun r => r.time ≤ hd.time) := by
      rw [hSdef, List.filter_filter]
      apply List.filter_congr
      intro x _
      by_cases hx : x.time ≤ hd.time
      · simp [hx, le_trans hx hdanchor]
      · simp [hx]
    have hsplit : S.take k ++ hd :: tl = S := by
      rw [← hrt]; exact List.take_append_drop k S
    have htake : ∀ x ∈ S.take k, x.time < hd.time := by
      intro x hx
      have hPa := hSP
      rw [← hsplit] at hPa
      obtain ⟨-, -, hcross⟩ := List.pairwise_append.mp hPa
      exact hcross x hx hd (List.mem_cons_self hd tl)
    have hfilterS : S.filter (fun r => r.time ≤ hd.time) = S.take k ++ [hd] := by
      conv_lhs => rw [← hsplit]
      rw [List.filter_append]
      congr 1
      · exact List.filter_eq_self.mpr
          (fun a ha => decide_eq_true (le_of_lt (htake a ha)))
      · rw [List.filter_cons_of_pos (by simp)]
        rw [List.filter_eq_nil_iff.mpr
          (fun x hx => by simp [not_le.mpr (hhd x hx)])]
    have hkS : k ≤ S.length := by omega
    rw [hstep1, hfilterS, List.length_append, List.length_take]
    simp only [List.length_cons, List.length_nil]
    omega

/-- Fuel sufficiency for the backfill loop: over a strictly
time-increasing provider store and any batch size of at least two, the
loop reaches one of its break conditions within one step more than the
number of store bars at or before the cursor. -/
theorem getFullHistoryLoop_isSome (count : ℕ) (store : List Rate)
    (hc : 2 ≤ count)
    (hP : List.Pairwise (fun a b : Rate => a.time < b.time) store) :
    ∀ (n : ℕ) (anchor : ℤ) (acc : List (List Rate)) (fuel : ℕ),
      (store.filter (fun r => r.time ≤ anchor)).length ≤ n → n < fuel →
      (getFullHistoryLoop count store anchor acc fuel).isSome = true := by
  intro n
  induction n with
  | zero =>
    intro anchor acc fuel hle hfuel
    obtain ⟨f, rfl⟩ : ∃ f, fuel = f + 1 := ⟨fuel - 1, by omega⟩
    rw [getFullHistoryLoop]
    have h0 : (copyRatesFrom store anchor count).length = 0 := by
      unfold copyRatesFrom
      simp only
      rw [List.length_drop]
      omega
    rw [if_pos h0]
    rfl
  | succ n ih =>
    intro anchor acc fuel hle hfuel
    obtain ⟨f, rfl⟩ : ∃ f, fuel = f + 1 := ⟨fuel - 1, by omega⟩
    rw [getFullHistoryLoop]
    by_cases h0 : (copyRatesFrom store anchor count).length = 0
    · rw [if_pos h0]; rfl
    · rw [if_neg h0]
      by_cases hlt : (copyRatesFrom store anchor count).length < count
      · rw [if_pos hlt]; rfl
      · rw [if_neg hlt]
        have hlen : (copyRatesFrom store anchor count).length =
            (store.filter (fun r => r.time ≤ anchor)).length -
              ((store.filter (fun r => r.time ≤ anchor)).length - count) := by
          unfold copyRatesFrom
          simp only
          rw [List.length_drop]
        have hn : count ≤ (store.filter (fun r => r.time ≤ anchor)).length := by
          omega
        have hkey := filter_le_minTime_length store anchor count hP hc hn
        exact ih (minTime (copyRatesFrom store anchor count))
          (acc ++ [copyRatesFrom store anchor count]) f (by omega) (by omega)

/-- C4: for every provider store that is bounded (finite) and strictly
increasing in time, the backfill loop of `get_full_history` terminates:
fuel one larger than the size of the available history always reaches a
break — even while the provider keeps answering with full batches of
10000 bars — because the cursor strictly descends through the store and
eventually the provider returns fewer bars than requested (or none). -/
theorem backfill_terminates :
    ∀ (store : List Rate) (now : ℤ) (fuel : ℕ),
      List.Pairwise (fun a b : Rate => a.time < b.time) store →
      store.length < fuel →
      (get_full_history store now fuel).isSome = true := by
  intro store now fuel hP hf
  have h := getFullHistoryLoop_isSome 10000 store (by norm_num) hP store.length
    now [] fuel (List.length_filter_le _ _) hf
  unfold get_full_history getFullHistoryWith
  rcases Option.isSome_iff_exists.mp h with ⟨v, hv⟩
  rw [hv]
  rfl

/-- Witness for C4 at a concrete input: a bounded three-bar provider
store with strictly increasing times; the loop completes within the
bound. -/
theorem backfill_terminates_witness :
    List.Pairwise (fun a b : Rate => a.time < b.time)
      [exRate 0, exRate 1, exRate 2] ∧
    (get_full_history [exRate 0, exRate 1, exRate 2] 10 4).isSome = true :=
  ⟨by decide,
   backfill_terminates [exRate 0, exRate 1, exRate 2] 10 4 (by decide) (by decide)⟩
